import Mathlib

/-!
Shallow embedding of the email lifecycle state machine and approval workflow of
the `c-auto` repository (src/app/api/v1/emails.py and src/app/models/email.py).

Modelling conventions:
* SQLAlchemy rows become Lean structures; nullable columns become `Option`.
* Python `Optional[str]` truthiness (`not x` is true for both `None` and `""`)
  is modelled by `truthy`.
* Every endpoint that can raise `HTTPException` becomes a function into
  `Except String`; since `get_db` closes the session without committing,
  an exception raised before `db.commit()` discards all pending mutations,
  so an `Except.error` result faithfully models "state unchanged".
* The external AI calls (`ask_gemini` / `ask_claude`) and the JSON parse of
  their output are modelled by the `AiOutcome` input to the classifier; the
  SMTP send is modelled by a `transportOk : Bool` input.
* `EmailApproval` rows are kept in creation order (each insert appends), so
  the ORM query `order_by(created_at.desc()).first()` over the `pending`
  rows reads the last pending element of the list.
* Wall-clock values (`datetime.now()`) are abstract `Nat` parameters.
-/

namespace CAuto

/-- Email lifecycle status (`EmailStatus` in src/app/models/email.py). -/
inductive EmailStatus
  | unread
  | read
  | draft
  | in_review
  | approved
  | rejected
  | sent
  | archived
deriving DecidableEq

/-- String value of each status, as stored in the `status` column. -/
def EmailStatus.val : EmailStatus → String
  | .unread => "unread"
  | .read => "read"
  | .draft => "draft"
  | .in_review => "in_review"
  | .approved => "approved"
  | .rejected => "rejected"
  | .sent => "sent"
  | .archived => "archived"

/-- The fixed 8-category set (`valid_cats` in `classify_email_8cat`). -/
def validCats : List String :=
  ["발주", "요청", "견적요청", "문의", "공지", "미팅", "클레임", "기타"]

/-- The `confidence` field of the parsed AI JSON as seen by `int(...)`:
absent (Python default 50 applies), an integer value, or a value on which
`int(...)` raises (sending `classify_email_8cat` to its except-branch). -/
inductive ConfVal
  | absent
  | num (n : Int)
  | bad
deriving DecidableEq

/-- Combined outcome of `ask_gemini` plus the JSON extraction in
`classify_email_8cat`: either the call/parse fails (raises), or it yields a
JSON object with optional `category`, `priority`, `summary` and `confidence`
fields. -/
inductive AiOutcome
  | fail
  | ok (category priority summary : Option String) (confidence : ConfVal)
deriving DecidableEq

/-- Dictionary returned by `classify_email_8cat`. -/
structure Classification where
  category : String
  priority : String
  summary : String
  confidence : Int
deriving DecidableEq

/-- Category validation in `classify_email_8cat`: a missing or invalid
category is replaced by "기타" before the result dictionary is built. -/
def validateCategory (cat : Option String) : String :=
  match cat with
  | some c => if validCats.contains c then c else "기타"
  | none => "기타"

/-- Embedding of `classify_email_8cat` (src/app/api/v1/emails.py lines
98-153).  A raised exception anywhere in the try-block (AI call, JSON parse,
`int(confidence)`) yields the fallback dictionary with category "기타",
priority "medium", summary = subject and confidence 0.  Otherwise the
category is validated against `validCats`, the priority and summary are
taken verbatim with defaults "medium" / subject, and the confidence is
clamped by `min(100, max(0, ...))` with Python-default 50 when absent. -/
def classifyEmail8cat (subject : String) (outcome : AiOutcome) : Classification :=
  match outcome with
  | .fail =>
      { category := "기타", priority := "medium", summary := subject, confidence := 0 }
  | .ok cat pri summ conf =>
      match conf with
      | .bad =>
          { category := "기타", priority := "medium", summary := subject, confidence := 0 }
      | .num n =>
          { category := validateCategory cat
            priority := pri.getD "medium"
            summary := summ.getD subject
            confidence := min 100 (max 0 n) }
      | .absent =>
          { category := validateCategory cat
            priority := pri.getD "medium"
            summary := summ.getD subject
            confidence := min 100 (max 0 50) }

/-- Row of the `emails` table (`Email` in src/app/models/email.py). -/
structure Email where
  id : Nat
  externalId : Option String
  subject : String
  sender : String
  recipient : String
  body : String
  category : String
  priority : String
  aiSummary : Option String
  aiDraftResponse : Option String
  aiConfidence : Int
  status : EmailStatus
  draftResponse : Option String
  draftSubject : Option String
  processedBy : Option Nat
  receivedAt : Option Nat
  processedAt : Option Nat
  sentAt : Option Nat
deriving DecidableEq

/-- Row of the `email_approvals` table (`EmailApproval` in
src/app/models/email.py).  `stage` and `status` are stringly typed exactly
as in the source ("review"/"approval"/"send", "pending"/"approved"/"rejected"). -/
structure EmailApproval where
  id : Nat
  emailId : Nat
  stage : String
  approverId : Nat
  status : String
  comments : Option String
  approvedAt : Option Nat
  createdAt : Nat
deriving DecidableEq

/-- Database state restricted to a single message: its `emails` row and its
`email_approvals` rows in creation order. -/
structure MState where
  email : Email
  approvals : List EmailApproval
deriving DecidableEq

/-- Body of the PATCH request (`EmailDraftUpdate` schema); `none` models an
omitted field. -/
structure EmailDraftUpdate where
  draft_response : Option String
  draft_subject : Option String
  category : Option String
  priority : Option String
deriving DecidableEq

/-- Python truthiness of an `Optional[str]` column: `None` and `""` are
falsy, every other string is truthy. -/
def truthy : Option String → Bool
  | none => false
  | some s => !(s == "")

/-- Python `a or b` on two `Optional[str]` values. -/
def pyOr (a b : Option String) : Option String :=
  if truthy a then a else b

/-- Check used by the workflow queries: `EmailApproval.status == "pending"`. -/
def isPending (a : EmailApproval) : Bool :=
  a.status == "pending"

/-- Number of pending approval rows of a message. -/
def pendingCount (l : List EmailApproval) : Nat :=
  l.countP isPending

/-- Surrogate id handed to the next inserted approval row. -/
def nextEventId (s : MState) : Nat :=
  s.approvals.length

/-- Update the most recently created pending approval row, if any.  The ORM
query filters `status == "pending"`, orders by `created_at` descending and
takes the first row; rows are stored in creation order, so that row is the
last pending element of the list.  When no pending row exists the code's
`if pending_approval:` guard skips the update and the list is unchanged. -/
def updateLastPending (f : EmailApproval → EmailApproval) :
    List EmailApproval → List EmailApproval
  | [] => []
  | a :: rest =>
      if rest.any isPending then a :: updateLastPending f rest
      else if isPending a then f a :: rest
      else a :: updateLastPending f rest

/-- Resolution applied to the latest pending approval by `approve_email` /
`reject_email`: set its status to the decision, record the acting approver,
the comments and the decision timestamp. -/
def resolvePending (decision : String) (uid now : Nat) (comments : Option String)
    (l : List EmailApproval) : List EmailApproval :=
  updateLastPending
    (fun a => { a with status := decision, approverId := uid,
                       comments := comments, approvedAt := some now }) l

/-- Embedding of `get_email` (GET detail endpoint): an UNREAD message is
marked READ; otherwise the state is returned unchanged. -/
def getEmail (s : MState) : MState :=
  { s with email :=
      { s.email with status :=
          if s.email.status = .unread then .read else s.email.status } }

/-- Embedding of `update_email_draft` (PATCH endpoint, lines 459-486): each
supplied field of the request body is written verbatim onto the row (no
validation of `category` / `priority`); a READ message moves to DRAFT;
`processed_by` is set to the caller.  The endpoint never rejects. -/
def updateEmailDraft (update : EmailDraftUpdate) (uid : Nat) (s : MState) : MState :=
  let e := s.email
  let e := match update.draft_response with
    | some v => { e with draftResponse := some v }
    | none => e
  let e := match update.draft_subject with
    | some v => { e with draftSubject := some v }
    | none => e
  let e := match update.category with
    | some v => { e with category := v }
    | none => e
  let e := match update.priority with
    | some v => { e with priority := v }
    | none => e
  { s with email :=
      { e with status := if e.status = .read then .draft else e.status,
               processedBy := some uid } }

/-- Approval row inserted by `submit_for_review`. -/
def mkReviewPending (emailId uid now eid : Nat) : EmailApproval :=
  { id := eid, emailId := emailId, stage := "review", approverId := uid,
    status := "pending", comments := none, approvedAt := none, createdAt := now }

/-- State produced by a successful `submit_for_review`. -/
def submitApply (uid now : Nat) (s : MState) : MState :=
  { email := { s.email with status := .in_review, processedBy := some uid },
    approvals := s.approvals ++ [mkReviewPending s.email.id uid now (nextEventId s)] }

/-- Embedding of `submit_for_review` (lines 493-525): requires status in
[READ, DRAFT, REJECTED] and a truthy draft (human-edited or AI); then inserts
one pending review-stage approval row and moves the message to IN_REVIEW. -/
def submitForReview (uid now : Nat) (s : MState) : Except String MState :=
  if s.email.status ∈ [EmailStatus.read, EmailStatus.draft, EmailStatus.rejected] then
    if truthy s.email.draftResponse || truthy s.email.aiDraftResponse then
      .ok (submitApply uid now s)
    else
      .error "답신 초안이 없습니다. 먼저 답신을 작성하세요."
  else
    .error ("현재 상태(" ++ s.email.status.val ++ ")에서는 제출할 수 없습니다")

/-- Approval row inserted by `approve_email` for the "approval" stage. -/
def mkApprovalEvent (emailId uid now eid : Nat) (comments : Option String) : EmailApproval :=
  { id := eid, emailId := emailId, stage := "approval", approverId := uid,
    status := "approved", comments := comments, approvedAt := some now, createdAt := now }

/-- State produced by a successful `approve_email`: the latest pending
approval row (of any stage — the query has no stage filter) is resolved to
"approved" if one exists, an "approval"-stage row is appended, and the
message moves to APPROVED. -/
def approveApply (uid now : Nat) (comments : Option String) (s : MState) : MState :=
  { email := { s.email with status := .approved },
    approvals := resolvePending "approved" uid now comments s.approvals
      ++ [mkApprovalEvent s.email.id uid now (nextEventId s) comments] }

/-- Embedding of `approve_email` (lines 528-576); the approver capability
check (`require_approver`) is an opaque guard satisfied by the caller. -/
def approveEmail (uid now : Nat) (comments : Option String) (s : MState) :
    Except String MState :=
  if s.email.status = .in_review then
    .ok (approveApply uid now comments s)
  else
    .error "검토 중인 이메일만 승인할 수 있습니다"

/-- State produced by a successful `reject_email`: the latest pending
approval row is resolved to "rejected" if one exists (no new row is
appended), and the message moves to REJECTED. -/
def rejectApply (uid now : Nat) (comments : Option String) (s : MState) : MState :=
  { email := { s.email with status := .rejected },
    approvals := resolvePending "rejected" uid now comments s.approvals }

/-- Embedding of `reject_email` (lines 579-616). -/
def rejectEmail (uid now : Nat) (comments : Option String) (s : MState) :
    Except String MState :=
  if s.email.status = .in_review then
    .ok (rejectApply uid now comments s)
  else
    .error "검토 중인 이메일만 반려할 수 있습니다"

/-- Approval row inserted by `send_email` after a successful transport send. -/
def mkSendEvent (emailId uid now eid : Nat) : EmailApproval :=
  { id := eid, emailId := emailId, stage := "send", approverId := uid,
    status := "approved", comments := some "발송 완료", approvedAt := some now,
    createdAt := now }

/-- State produced by `send_email` when the SMTP send succeeds: status SENT,
`sent_at` set, one "send"-stage approval row appended. -/
def sendApply (uid now : Nat) (s : MState) : MState :=
  { email := { s.email with status := .sent, sentAt := some now },
    approvals := s.approvals ++ [mkSendEvent s.email.id uid now (nextEventId s)] }

/-- Embedding of `send_email` (lines 619-683): requires status APPROVED; the
reply body is `draft_response or ai_draft_response` (staff draft wins) and
must be truthy; the SMTP call is modelled by `transportOk`.  All row
mutations (status, `sent_at`, the send-stage approval row) happen after the
transport call succeeds, so a transport failure raises before any mutation
and the uncommitted session is discarded: the error branch carries no state. -/
def sendEmail (uid now : Nat) (transportOk : Bool) (s : MState) :
    Except String MState :=
  if s.email.status = .approved then
    if truthy (pyOr s.email.draftResponse s.email.aiDraftResponse) then
      if transportOk then
        .ok (sendApply uid now s)
      else
        .error "이메일 발송 실패"
    else
      .error "발송할 답신 내용이 없습니다"
  else
    .error "승인된 이메일만 발송할 수 있습니다"

/-- Embedding of `reclassify_email` (lines 686-713): re-runs the classifier
and the draft generator (whose result, empty on failure, is `draft`) and
overwrites the AI fields; the status is never touched. -/
def reclassifyEmail (uid now : Nat) (outcome : AiOutcome) (draft : String)
    (s : MState) : MState :=
  let c := classifyEmail8cat s.email.subject outcome
  { s with email :=
      { s.email with category := c.category, priority := c.priority,
                     aiSummary := some c.summary, aiDraftResponse := some draft,
                     aiConfidence := c.confidence, processedAt := some now,
                     processedBy := some uid } }

/-- Embedding of `delete_email` (lines 716-730): a soft archive with no
status guard — every message, whatever its status, is moved to ARCHIVED. -/
def deleteEmail (s : MState) : MState :=
  { s with email := { s.email with status := .archived } }

/-- Raw message drained from the POP3 mailbox together with the outcomes of
the two per-message AI calls made while ingesting it.  `messageId` is the
Message-ID header (absent headers trigger the `pop3-...` fallback id);
`draft` is the `generate_draft_response` result, `""` on failure. -/
structure TransportMsg where
  messageId : Option String
  subject : String
  sender : String
  recipient : String
  dateHeader : Option Nat
  body : String
  ai : AiOutcome
  draft : String
deriving DecidableEq

/-- External id computed for ordinal `i` at ingestion time `now`:
`msg.get("Message-ID", f"pop3-...")`. -/
def extId (now i : Nat) (m : TransportMsg) : String :=
  match m.messageId with
  | some mid => mid
  | none => "pop3-" ++ toString i ++ "-" ++ toString now

/-- Dedup check of the ingestion loop: does a row with this `external_id`
already exist? -/
def hasExt (db : List Email) (eid : String) : Bool :=
  db.any (fun r => r.externalId == some eid)

/-- Number of rows carrying a given `external_id`. -/
def countExt (db : List Email) (eid : String) : Nat :=
  db.countP (fun r => r.externalId == some eid)

/-- Row inserted by `fetch_emails` for a fresh message: body capped at 10000
characters, AI fields from the classifier (with its internal fallback),
status UNREAD, `sent_at` unset. -/
def mkEmail (uid now dbLen i : Nat) (m : TransportMsg) : Email :=
  let c := classifyEmail8cat m.subject m.ai
  { id := dbLen, externalId := some (extId now i m), subject := m.subject,
    sender := m.sender, recipient := m.recipient, body := m.body.take 10000,
    category := c.category, priority := c.priority, aiSummary := some c.summary,
    aiDraftResponse := some m.draft, aiConfidence := c.confidence,
    status := .unread, draftResponse := none, draftSubject := none,
    processedBy := some uid, receivedAt := m.dateHeader, processedAt := some now,
    sentAt := none }

/-- One iteration of the `fetch_emails` loop body: skip when the external id
already exists, otherwise insert a new row. -/
def ingestOne (uid now : Nat) (db : List Email) (im : Nat × TransportMsg) :
    List Email :=
  if hasExt db (extId now im.1 im.2) then db
  else db ++ [mkEmail uid now db.length im.1 im.2]

/-- Embedding of the `fetch_emails` loop (lines 363-442) over a batch of
(ordinal, message) pairs drained from the transport. -/
def ingestBatch (uid now : Nat) (db : List Email)
    (batch : List (Nat × TransportMsg)) : List Email :=
  batch.foldl (ingestOne uid now) db

/-- A state as created by the ingestion pipeline: status UNREAD, no
`sent_at`, no approval rows yet. -/
def initialIngested (s : MState) : Prop :=
  s.email.status = .unread ∧ s.email.sentAt = none ∧ s.approvals = []

/-- One public operation applied to the state of a single message, with
arbitrary caller, clock, request data and external-collaborator outcomes. -/
inductive Step : MState → MState → Prop
  | view (s : MState) : Step s (getEmail s)
  | edit (u : EmailDraftUpdate) (uid : Nat) (s : MState) :
      Step s (updateEmailDraft u uid s)
  | submit (uid now : Nat) (s s' : MState) :
      submitForReview uid now s = .ok s' → Step s s'
  | approve (uid now : Nat) (c : Option String) (s s' : MState) :
      approveEmail uid now c s = .ok s' → Step s s'
  | reject (uid now : Nat) (c : Option String) (s s' : MState) :
      rejectEmail uid now c s = .ok s' → Step s s'
  | send (uid now : Nat) (tok : Bool) (s s' : MState) :
      sendEmail uid now tok s = .ok s' → Step s s'
  | reclassify (uid now : Nat) (o : AiOutcome) (d : String) (s : MState) :
      Step s (reclassifyEmail uid now o d s)
  | archive (s : MState) : Step s (deleteEmail s)

/-- States of a message reachable from ingestion by any sequence of public
operations. -/
inductive Reachable : MState → Prop
  | init (s : MState) : initialIngested s → Reachable s
  | step (s s' : MState) : Reachable s → Step s s' → Reachable s'

/-- Inductive invariant of the per-message workflow state. -/
structure StateInv (s : MState) : Prop where
  pending_le : pendingCount s.approvals ≤ 1
  pending_review : ∀ a ∈ s.approvals, isPending a = true → a.stage = "review"
  in_review_pending : s.email.status = .in_review → pendingCount s.approvals = 1
  no_pending : s.email.status ≠ .in_review → s.email.status ≠ .archived →
    pendingCount s.approvals = 0
  sent_at_sent : s.email.status = .sent → s.email.sentAt.isSome = true
  sent_at_only : s.email.sentAt.isSome = true →
    s.email.status = .sent ∨ s.email.status = .archived

theorem any_pending_iff (l : List EmailApproval) :
    l.any isPending = true ↔ 0 < pendingCount l := by
  rw [List.any_eq_true, pendingCount, List.countP_pos_iff]

theorem updateLastPending_of_no_pending (f : EmailApproval → EmailApproval)
    (l : List EmailApproval) (h : pendingCount l = 0) :
    updateLastPending f l = l := by
  induction l with
  | nil => rfl
  | cons a rest ih =>
      rw [pendingCount, List.countP_eq_zero] at h
      have ha : ¬ isPending a = true := h a (List.mem_cons_self a rest)
      have hrest : pendingCount rest = 0 := by
        rw [pendingCount, List.countP_eq_zero]
        exact fun x hx => h x (List.mem_cons_of_mem a hx)
      have hany : rest.any isPending = false :=
        List.any_eq_false.mpr fun x hx =>
          h x (List.mem_cons_of_mem a hx)
      rw [updateLastPending, hany]
      simp only [Bool.false_eq_true, if_false]
      rw [if_neg ha, ih hrest]

theorem pendingCount_updateLastPending (f : EmailApproval → EmailApproval)
    (hf : ∀ a, isPending (f a) = false) (l : List EmailApproval) :
    pendingCount (updateLastPending f l) = pendingCount l - 1 := by
  induction l with
  | nil => rfl
  | cons a rest ih =>
      by_cases hany : rest.any isPending = true
      · have hpos : 0 < pendingCount rest := (any_pending_iff rest).mp hany
        rw [updateLastPending, if_pos hany, pendingCount, List.countP_cons,
          pendingCount, List.countP_cons]
        have ih' : (updateLastPending f rest).countP isPending = pendingCount rest - 1 := ih
        rw [ih']
        rw [pendingCount] at hpos ⊢
        cases isPending a <;> (simp; try omega)
      · have hany' : rest.any isPending = false := by
          cases h : rest.any isPending
          · rfl
          · exact absurd h hany
        have hz : pendingCount rest = 0 := by
          rcases Nat.eq_zero_or_pos (pendingCount rest) with h | h
          · exact h
          · exact absurd ((any_pending_iff rest).mpr h) hany
        rw [updateLastPending, hany']
        simp only [Bool.false_eq_true, if_false]
        by_cases hpa : isPending a = true
        · rw [if_pos hpa, pendingCount, List.countP_cons, pendingCount,
            List.countP_cons, hf a, hpa]
          rw [pendingCount] at hz
          simp [hz]
        · have hpa' : isPending a = false := by
            cases h : isPending a
            · rfl
            · exact absurd h hpa
          rw [if_neg hpa, pendingCount, List.countP_cons, pendingCount,
            List.countP_cons, hpa']
          rw [pendingCount, hz] at ih
          rw [pendingCount] at hz
          simp [ih, hz]

theorem pending_mem_updateLastPending (f : EmailApproval → EmailApproval)
    (hf : ∀ a, isPending (f a) = false) (l : List EmailApproval) :
    ∀ b ∈ updateLastPending f l, isPending b = true → b ∈ l := by
  induction l with
  | nil => intro b hb; rw [updateLastPending] at hb; cases hb
  | cons a rest ih =>
      intro b hb hpb
      rw [updateLastPending] at hb
      split at hb
      · rcases List.mem_cons.mp hb with rfl | h
        · exact List.mem_cons.mpr (Or.inl rfl)
        · exact List.mem_cons_of_mem _ (ih b h hpb)
      · split at hb
        · rcases List.mem_cons.mp hb with rfl | h
          · rw [hf] at hpb; cases hpb
          · exact List.mem_cons_of_mem _ h
        · rcases List.mem_cons.mp hb with rfl | h
          · exact List.mem_cons.mpr (Or.inl rfl)
          · exact List.mem_cons_of_mem _ (ih b h hpb)

theorem isPending_resolve (decision : String) (uid now : Nat)
    (comments : Option String) (hdec : (decision == "pending") = false)
    (a : EmailApproval) :
    isPending { a with status := decision, approverId := uid,
                       comments := comments, approvedAt := some now } = false := by
  rw [isPending]
  exact hdec

theorem submitForReview_ok {uid now : Nat} {s s' : MState}
    (h : submitForReview uid now s = .ok s') :
    (s.email.status = .read ∨ s.email.status = .draft ∨ s.email.status = .rejected) ∧
    (truthy s.email.draftResponse || truthy s.email.aiDraftResponse) = true ∧
    s' = submitApply uid now s := by
  rw [submitForReview] at h
  split at h
  · split at h
    · refine ⟨?_, ‹_›, (Except.ok.inj h).symm⟩
      simpa using ‹s.email.status ∈ [EmailStatus.read, EmailStatus.draft, EmailStatus.rejected]›
    · cases h
  · cases h

theorem approveEmail_ok {uid now : Nat} {c : Option String} {s s' : MState}
    (h : approveEmail uid now c s = .ok s') :
    s.email.status = .in_review ∧ s' = approveApply uid now c s := by
  rw [approveEmail] at h
  split at h
  · exact ⟨‹_›, (Except.ok.inj h).symm⟩
  · cases h

theorem rejectEmail_ok {uid now : Nat} {c : Option String} {s s' : MState}
    (h : rejectEmail uid now c s = .ok s') :
    s.email.status = .in_review ∧ s' = rejectApply uid now c s := by
  rw [rejectEmail] at h
  split at h
  · exact ⟨‹_›, (Except.ok.inj h).symm⟩
  · cases h

theorem sendEmail_ok {uid now : Nat} {tok : Bool} {s s' : MState}
    (h : sendEmail uid now tok s = .ok s') :
    s.email.status = .approved ∧
    truthy (pyOr s.email.draftResponse s.email.aiDraftResponse) = true ∧
    tok = true ∧ s' = sendApply uid now s := by
  rw [sendEmail] at h
  split at h
  · split at h
    · split at h
      · exact ⟨‹_›, ‹_›, ‹_›, (Except.ok.inj h).symm⟩
      · cases h
    · cases h
  · cases h

theorem updateEmailDraft_status (u : EmailDraftUpdate) (uid : Nat) (s : MState) :
    (updateEmailDraft u uid s).email.status =
      if s.email.status = .read then .draft else s.email.status := by
  rcases u with ⟨dr, ds, c, p⟩
  cases dr <;> cases ds <;> cases c <;> cases p <;> rfl

theorem updateEmailDraft_sentAt (u : EmailDraftUpdate) (uid : Nat) (s : MState) :
    (updateEmailDraft u uid s).email.sentAt = s.email.sentAt := by
  rcases u with ⟨dr, ds, c, p⟩
  cases dr <;> cases ds <;> cases c <;> cases p <;> rfl

theorem updateEmailDraft_approvals (u : EmailDraftUpdate) (uid : Nat) (s : MState) :
    (updateEmailDraft u uid s).approvals = s.approvals := rfl

theorem pendingCount_submitApply (uid now : Nat) (s : MState) :
    pendingCount (submitApply uid now s).approvals = pendingCount s.approvals + 1 := by
  show pendingCount (s.approvals ++ [mkReviewPending s.email.id uid now (nextEventId s)])
    = pendingCount s.approvals + 1
  rw [pendingCount, List.countP_append, pendingCount]
  rfl

theorem pendingCount_approveApply (uid now : Nat) (c : Option String) (s : MState) :
    pendingCount (approveApply uid now c s).approvals
      = pendingCount s.approvals - 1 := by
  show pendingCount (resolvePending "approved" uid now c s.approvals
      ++ [mkApprovalEvent s.email.id uid now (nextEventId s) c])
    = pendingCount s.approvals - 1
  rw [pendingCount, List.countP_append]
  have h := pendingCount_updateLastPending
    (fun a => { a with status := "approved", approverId := uid,
                       comments := c, approvedAt := some now })
    (fun a => isPending_resolve "approved" uid now c rfl a) s.approvals
  rw [resolvePending, pendingCount] at *
  rw [h]
  rfl

theorem pendingCount_rejectApply (uid now : Nat) (c : Option String) (s : MState) :
    pendingCount (rejectApply uid now c s).approvals
      = pendingCount s.approvals - 1 := by
  show pendingCount (resolvePending "rejected" uid now c s.approvals)
    = pendingCount s.approvals - 1
  have h := pendingCount_updateLastPending
    (fun a => { a with status := "rejected", approverId := uid,
                       comments := c, approvedAt := some now })
    (fun a => isPending_resolve "rejected" uid now c rfl a) s.approvals
  rw [resolvePending]
  exact h

theorem pendingCount_sendApply (uid now : Nat) (s : MState) :
    pendingCount (sendApply uid now s).approvals = pendingCount s.approvals := by
  show pendingCount (s.approvals ++ [mkSendEvent s.email.id uid now (nextEventId s)])
    = pendingCount s.approvals
  rw [pendingCount, List.countP_append, pendingCount]
  rfl

theorem step_inv {s s' : MState} (hs : StateInv s) (h : Step s s') : StateInv s' := by
  cases h with
  | view s =>
      by_cases hu : s.email.status = .unread
      · refine ⟨hs.pending_le, hs.pending_review, ?_, ?_, ?_, ?_⟩ <;>
          simp only [getEmail, hu, if_pos, if_true]
        · intro h; cases h
        · intro _ _
          exact hs.no_pending (by rw [hu]; intro h; cases h)
            (by rw [hu]; intro h; cases h)
        · intro h; cases h
        · intro h
          rcases hs.sent_at_only h with h' | h' <;> rw [hu] at h' <;> cases h'
      · have : getEmail s = { s with email := { s.email with status := s.email.status } } := by
          rw [getEmail, if_neg hu]
        rw [this]
        exact ⟨hs.pending_le, hs.pending_review, hs.in_review_pending,
          hs.no_pending, hs.sent_at_sent, hs.sent_at_only⟩
  | edit u uid s =>
      have hst := updateEmailDraft_status u uid s
      have hsa := updateEmailDraft_sentAt u uid s
      have hap := updateEmailDraft_approvals u uid s
      constructor
      · rw [hap]; exact hs.pending_le
      · rw [hap]; exact hs.pending_review
      · rw [hap, hst]
        split
        · intro h; cases h
        · exact hs.in_review_pending
      · rw [hap, hst]
        split
        · rename_i hr
          intro _ _
          exact hs.no_pending (by rw [hr]; intro hc; cases hc)
            (by rw [hr]; intro hc; cases hc)
        · exact hs.no_pending
      · rw [hst, hsa]
        split
        · intro h; cases h
        · exact hs.sent_at_sent
      · rw [hst, hsa]
        split
        · rename_i hr
          intro h
          rcases hs.sent_at_only h with h' | h' <;> rw [hr] at h' <;> cases h'
        · exact hs.sent_at_only
  | submit uid now s s' hok =>
      obtain ⟨hstat, _, rfl⟩ := submitForReview_ok hok
      have hz : pendingCount s.approvals = 0 := by
        apply hs.no_pending <;> rcases hstat with h | h | h <;> rw [h] <;>
          intro hc <;> cases hc
      have hc1 : pendingCount (submitApply uid now s).approvals = 1 := by
        rw [pendingCount_submitApply, hz]
      refine ⟨by rw [hc1], ?_, fun _ => hc1, ?_, ?_, ?_⟩
      · intro a ha hpa
        show a.stage = "review"
        rcases List.mem_append.mp ha with h | h
        · exact hs.pending_review a h hpa
        · rcases List.mem_singleton.mp h with rfl
          rfl
      · intro hne _
        exact absurd rfl hne
      · intro h; cases h
      · intro h
        have hs0 : s.email.sentAt.isSome = true := h
        rcases hs.sent_at_only hs0 with h' | h' <;>
          rcases hstat with hx | hx | hx <;> rw [hx] at h' <;> cases h'
  | approve uid now c s s' hok =>
      obtain ⟨hstat, rfl⟩ := approveEmail_ok hok
      have h1 : pendingCount s.approvals = 1 := hs.in_review_pending hstat
      have hz : pendingCount (approveApply uid now c s).approvals = 0 := by
        rw [pendingCount_approveApply, h1]
      refine ⟨by rw [hz]; exact Nat.zero_le 1, ?_, ?_, fun _ _ => hz, ?_, ?_⟩
      · intro a ha hpa
        show a.stage = "review"
        rcases List.mem_append.mp ha with h | h
        · exact hs.pending_review a
            (pending_mem_updateLastPending _
              (fun a => isPending_resolve "approved" uid now c rfl a)
              s.approvals a h hpa) hpa
        · rcases List.mem_singleton.mp h with rfl
          cases hpa
      · intro h; cases h
      · intro h; cases h
      · intro h
        have hs0 : s.email.sentAt.isSome = true := h
        rcases hs.sent_at_only hs0 with h' | h' <;> rw [hstat] at h' <;> cases h'
  | reject uid now c s s' hok =>
      obtain ⟨hstat, rfl⟩ := rejectEmail_ok hok
      have h1 : pendingCount s.approvals = 1 := hs.in_review_pending hstat
      have hz : pendingCount (rejectApply uid now c s).approvals = 0 := by
        rw [pendingCount_rejectApply, h1]
      refine ⟨by rw [hz]; exact Nat.zero_le 1, ?_, ?_, fun _ _ => hz, ?_, ?_⟩
      · intro a ha hpa
        exact hs.pending_review a
          (pending_mem_updateLastPending _
            (fun a => isPending_resolve "rejected" uid now c rfl a)
            s.approvals a ha hpa) hpa
      · intro h; cases h
      · intro h; cases h
      · intro h
        have hs0 : s.email.sentAt.isSome = true := h
        rcases hs.sent_at_only hs0 with h' | h' <;> rw [hstat] at h' <;> cases h'
  | send uid now tok s s' hok =>
      obtain ⟨hstat, _, _, rfl⟩ := sendEmail_ok hok
      have hz : pendingCount s.approvals = 0 := by
        apply hs.no_pending <;> rw [hstat] <;> intro hc <;> cases hc
      have hz' : pendingCount (sendApply uid now s).approvals = 0 := by
        rw [pendingCount_sendApply, hz]
      refine ⟨by rw [hz']; exact Nat.zero_le 1, ?_, ?_, fun _ _ => hz', ?_, ?_⟩
      · intro a ha hpa
        rcases List.mem_append.mp ha with h | h
        · exact hs.pending_review a h hpa
        · rcases List.mem_singleton.mp h with rfl
          cases hpa
      · intro h; cases h
      · intro _; rfl
      · intro _; exact Or.inl rfl
  | reclassify uid now o d s =>
      exact ⟨hs.pending_le, hs.pending_review, hs.in_review_pending,
        hs.no_pending, hs.sent_at_sent, hs.sent_at_only⟩
  | archive s =>
      refine ⟨hs.pending_le, hs.pending_review, ?_, ?_, ?_, ?_⟩
      · intro h; cases h
      · intro _ hne; exact absurd rfl hne
      · intro h; cases h
      · intro _; exact Or.inr rfl

theorem reachable_inv {s : MState} (h : Reachable s) : StateInv s := by
  induction h with
  | init s hinit =>
      obtain ⟨hst, hsa, hap⟩ := hinit
      have hz : pendingCount s.approvals = 0 := by rw [hap]; rfl
      refine ⟨by rw [hz]; exact Nat.zero_le 1, ?_, ?_, fun _ _ => hz, ?_, ?_⟩
      · intro a ha; rw [hap] at ha; cases ha
      · intro h; rw [hst] at h; cases h
      · intro h; rw [hst] at h; cases h
      · intro h; rw [hsa] at h; cases h
  | step s s' _ hstep ih => exact step_inv ih hstep

theorem hasExt_iff_countExt (db : List Email) (e : String) :
    hasExt db e = true ↔ 0 < countExt db e := by
  rw [hasExt, List.any_eq_true, countExt, List.countP_pos_iff]

theorem countExt_eq_zero_of_not_hasExt {db : List Email} {e : String}
    (h : hasExt db e = false) : countExt db e = 0 := by
  rcases Nat.eq_zero_or_pos (countExt db e) with h' | h'
  · exact h'
  · rw [(hasExt_iff_countExt db e).mpr h'] at h
    cases h

theorem hasExt_ingestOne {uid now : Nat} {db : List Email}
    {im : Nat × TransportMsg} {e : String} (h : hasExt db e = true) :
    hasExt (ingestOne uid now db im) e = true := by
  rw [ingestOne]
  split
  · exact h
  · rw [hasExt, List.any_append]
    rw [hasExt] at h
    rw [h, Bool.true_or]

theorem hasExt_ingestOne_self (uid now : Nat) (db : List Email)
    (im : Nat × TransportMsg) :
    hasExt (ingestOne uid now db im) (extId now im.1 im.2) = true := by
  rw [ingestOne]
  split
  · assumption
  · rw [hasExt, List.any_append]
    have : [mkEmail uid now db.length im.1 im.2].any
        (fun r => r.externalId == some (extId now im.1 im.2)) = true := by
      simp [mkEmail]
    rw [this, Bool.or_true]

theorem hasExt_ingestBatch (uid now : Nat) (batch : List (Nat × TransportMsg)) :
    ∀ (db : List Email) (e : String), hasExt db e = true →
      hasExt (ingestBatch uid now db batch) e = true := by
  induction batch with
  | nil => intro db e h; exact h
  | cons hd tl ih =>
      intro db e h
      exact ih (ingestOne uid now db hd) e (hasExt_ingestOne h)

theorem ext_present (uid now : Nat) (batch : List (Nat × TransportMsg)) :
    ∀ (db : List Email), ∀ im ∈ batch,
      hasExt (ingestBatch uid now db batch) (extId now im.1 im.2) = true := by
  induction batch with
  | nil => intro db im h; cases h
  | cons hd tl ih =>
      intro db im h
      rcases List.mem_cons.mp h with rfl | h
      · exact hasExt_ingestBatch uid now tl (ingestOne uid now db im)
          (extId now im.1 im.2) (hasExt_ingestOne_self uid now db im)
      · exact ih (ingestOne uid now db hd) im h

theorem countExt_ingestOne_le {uid now : Nat} {db : List Email}
    {im : Nat × TransportMsg} (hdb : ∀ e, countExt db e ≤ 1) :
    ∀ e, countExt (ingestOne uid now db im) e ≤ 1 := by
  intro e
  rw [ingestOne]
  split
  · exact hdb e
  · rename_i hfresh
    have hfresh' : hasExt db (extId now im.1 im.2) = false := by
      cases h : hasExt db (extId now im.1 im.2)
      · rfl
      · exact absurd h hfresh
    rw [countExt, List.countP_append]
    by_cases he : (mkEmail uid now db.length im.1 im.2).externalId = some e
    · have heq : extId now im.1 im.2 = e := by
        rw [show (mkEmail uid now db.length im.1 im.2).externalId
            = some (extId now im.1 im.2) from rfl] at he
        exact Option.some.inj he
      have hz : countExt db e = 0 := by
        rw [← heq]
        exact countExt_eq_zero_of_not_hasExt hfresh'
      rw [countExt] at hz
      rw [hz, Nat.zero_add]
      exact le_trans (List.countP_le_length _) (le_of_eq rfl)
    · have : List.countP (fun r => r.externalId == some e)
          [mkEmail uid now db.length im.1 im.2] = 0 := by
        rw [List.countP_eq_zero]
        intro x hx
        rcases List.mem_singleton.mp hx with rfl
        simpa using he
      rw [this]
      simpa [countExt] using hdb e

theorem countExt_ingestBatch_le (uid now : Nat) (batch : List (Nat × TransportMsg)) :
    ∀ (db : List Email), (∀ e, countExt db e ≤ 1) →
      ∀ e, countExt (ingestBatch uid now db batch) e ≤ 1 := by
  induction batch with
  | nil => intro db hdb; exact hdb
  | cons hd tl ih =>
      intro db hdb
      exact ih (ingestOne uid now db hd) (countExt_ingestOne_le hdb)

theorem countExt_ingestBatch_of_mem (uid now : Nat) (db : List Email)
    (batch : List (Nat × TransportMsg)) (hdb : ∀ e, countExt db e ≤ 1)
    {im : Nat × TransportMsg} (him : im ∈ batch) :
    countExt (ingestBatch uid now db batch) (extId now im.1 im.2) = 1 := by
  have h1 := (hasExt_iff_countExt _ _).mp (ext_present uid now batch db im him)
  have h2 := countExt_ingestBatch_le uid now batch db hdb (extId now im.1 im.2)
  omega

theorem ingestBatch_skips (uid now : Nat) (batch : List (Nat × TransportMsg)) :
    ∀ db : List Email, (∀ im ∈ batch, hasExt db (extId now im.1 im.2) = true) →
      ingestBatch uid now db batch = db := by
  induction batch with
  | nil => intro db _; rfl
  | cons hd tl ih =>
      intro db h
      have hskip : ingestOne uid now db hd = db := by
        rw [ingestOne, if_pos (h hd (List.mem_cons.mpr (Or.inl rfl)))]
      show ingestBatch uid now (ingestOne uid now db hd) tl = db
      rw [hskip]
      exact ih db fun im him => h im (List.mem_cons_of_mem hd him)

theorem extId_of_isSome {m : TransportMsg} (h : m.messageId.isSome = true)
    (now now' i : Nat) : extId now i m = extId now' i m := by
  rcases hm : m.messageId with _ | mid
  · rw [hm] at h; cases h
  · rw [extId, extId, hm]

theorem ingestBatch_append (uid now : Nat) (db : List Email)
    (b₁ b₂ : List (Nat × TransportMsg)) :
    ingestBatch uid now db (b₁ ++ b₂)
      = ingestBatch uid now (ingestBatch uid now db b₁) b₂ := by
  rw [ingestBatch, ingestBatch, ingestBatch, List.foldl_append]

theorem mem_ingestBatch (uid now : Nat) (batch : List (Nat × TransportMsg)) :
    ∀ (db : List Email) (r : Email), r ∈ db → r ∈ ingestBatch uid now db batch := by
  induction batch with
  | nil => intro db r h; exact h
  | cons hd tl ih =>
      intro db r h
      apply ih
      rw [ingestOne]
      split
      · exact h
      · exact List.mem_append_left _ h

/-- Concrete email row used to instantiate the theorems: a freshly ingested
message with an AI draft present. -/
def baseEmail : Email :=
  { id := 1, externalId := some "mid-1", subject := "견적 문의",
    sender := "cust@ext.kr", recipient := "sales@corp.kr", body := "본문",
    category := "기타", priority := "medium", aiSummary := some "요약",
    aiDraftResponse := some "안녕하세요. 회신드립니다.", aiConfidence := 50,
    status := .unread, draftResponse := none, draftSubject := none,
    processedBy := none, receivedAt := some 1, processedAt := some 2,
    sentAt := none }

/-- A message sitting in APPROVED, ready to send. -/
def approvedState : MState :=
  { email := { baseEmail with status := .approved }, approvals := [] }

/-- A message in IN_REVIEW whose ledger holds no pending row. -/
def inReviewNoPending : MState :=
  { email := { baseEmail with status := .in_review }, approvals := [] }

/-- A message already SENT (with `sent_at` set). -/
def sentState : MState :=
  { email := { baseEmail with status := .sent, sentAt := some 12 }, approvals := [] }

/-- An UNREAD message whose staff draft text is set. -/
def unreadDraftState : MState :=
  { email := { baseEmail with draftResponse := some "고객님께 드리는 회신" },
    approvals := [] }

/-- A READ message whose staff draft text is set. -/
def readDraftState : MState :=
  { email := { baseEmail with status := .read, draftResponse := some "고객님께 드리는 회신" },
    approvals := [] }

/-- C1 (confirmed): on an APPROVED message whose effective reply body is
non-empty, a send whose transport call fails returns an error and produces
no successor state — in the source every row mutation (status, `sent_at`,
the send-stage approval row) sits after the successful SMTP call and the
raised exception discards the uncommitted session, so the status stays
APPROVED, `sent_at` stays unset and no send-stage event is appended — and a
later send call on the very same state is still accepted and reaches SENT. -/
theorem sendEmail_transport_failure_keeps_approved (s : MState) (uid now : Nat)
    (happ : s.email.status = .approved)
    (hbody : truthy (pyOr s.email.draftResponse s.email.aiDraftResponse) = true) :
    sendEmail uid now false s = .error "이메일 발송 실패" ∧
    (∀ s', sendEmail uid now false s ≠ .ok s') ∧
    sendEmail uid now true s = .ok (sendApply uid now s) ∧
    (sendApply uid now s).email.status = .sent ∧
    (sendApply uid now s).email.sentAt = some now := by
  have hsf : sendEmail uid now false s = .error "이메일 발송 실패" := by
    rw [sendEmail, if_pos happ, if_pos hbody]
    rfl
  have hst : sendEmail uid now true s = .ok (sendApply uid now s) := by
    rw [sendEmail, if_pos happ, if_pos hbody]
    rfl
  refine ⟨hsf, ?_, hst, rfl, rfl⟩
  intro s' h
  rw [hsf] at h
  cases h

/-- Witness for C1 at the concrete approved state. -/
theorem sendEmail_transport_failure_keeps_approved_witness :
    sendEmail 1 7 false approvedState = .error "이메일 발송 실패" ∧
    (∀ s', sendEmail 1 7 false approvedState ≠ .ok s') ∧
    sendEmail 1 7 true approvedState = .ok (sendApply 1 7 approvedState) ∧
    (sendApply 1 7 approvedState).email.status = .sent ∧
    (sendApply 1 7 approvedState).email.sentAt = some 7 :=
  sendEmail_transport_failure_keeps_approved approvedState 1 7 rfl rfl

/-- C2 counterexample: a message in IN_REVIEW with no pending approval row
at all — `approve_email` and `reject_email` do NOT fail there: both succeed,
the status changes, and approve even appends its approval-stage row, contrary
to the claim that the transition fails with status unchanged and no event
appended. -/
theorem approveEmail_no_pending_still_succeeds :
    pendingCount inReviewNoPending.approvals = 0 ∧
    approveEmail 2 9 none inReviewNoPending
      = .ok (approveApply 2 9 none inReviewNoPending) ∧
    (approveApply 2 9 none inReviewNoPending).email.status = .approved ∧
    (approveApply 2 9 none inReviewNoPending).approvals.length = 1 ∧
    rejectEmail 2 9 none inReviewNoPending
      = .ok (rejectApply 2 9 none inReviewNoPending) ∧
    (rejectApply 2 9 none inReviewNoPending).email.status = .rejected :=
  ⟨rfl, rfl, rfl, rfl, rfl, rfl⟩

/-- C2 corrected: for a message in IN_REVIEW, approve and reject resolve the
most recent ApprovalEvent with decision pending — the query carries no stage
filter, and when no pending event exists the transition does not fail: it
still succeeds and changes the status, resolving nothing (approve still
appends its approval-stage event, reject appends nothing). -/
theorem approveEmail_rejectEmail_resolve_latest_pending (s : MState)
    (uid now : Nat) (c : Option String) (h : s.email.status = .in_review) :
    (approveEmail uid now c s = .ok (approveApply uid now c s) ∧
     (approveApply uid now c s).email.status = .approved ∧
     pendingCount (approveApply uid now c s).approvals
       = pendingCount s.approvals - 1 ∧
     (∀ b ∈ (approveApply uid now c s).approvals, isPending b = true →
        b ∈ s.approvals) ∧
     (pendingCount s.approvals = 0 →
        (approveApply uid now c s).approvals
          = s.approvals ++ [mkApprovalEvent s.email.id uid now (nextEventId s) c])) ∧
    (rejectEmail uid now c s = .ok (rejectApply uid now c s) ∧
     (rejectApply uid now c s).email.status = .rejected ∧
     pendingCount (rejectApply uid now c s).approvals
       = pendingCount s.approvals - 1 ∧
     (pendingCount s.approvals = 0 →
        (rejectApply uid now c s).approvals = s.approvals)) := by
  refine ⟨⟨?_, rfl, pendingCount_approveApply uid now c s, ?_, ?_⟩,
          ⟨?_, rfl, pendingCount_rejectApply uid now c s, ?_⟩⟩
  · rw [approveEmail, if_pos h]
  · intro b hb hpb
    rcases List.mem_append.mp hb with h' | h'
    · exact pending_mem_updateLastPending _
        (fun a => isPending_resolve "approved" uid now c rfl a) s.approvals b h' hpb
    · rcases List.mem_singleton.mp h' with rfl
      cases hpb
  · intro hz
    show resolvePending "approved" uid now c s.approvals ++ _ = _
    rw [resolvePending, updateLastPending_of_no_pending _ _ hz]
  · rw [rejectEmail, if_pos h]
  · intro hz
    show resolvePending "rejected" uid now c s.approvals = _
    rw [resolvePending, updateLastPending_of_no_pending _ _ hz]

/-- Witness for the corrected C2 at the concrete IN_REVIEW state. -/
theorem approveEmail_rejectEmail_resolve_latest_pending_witness :
    (approveEmail 2 9 none inReviewNoPending
       = .ok (approveApply 2 9 none inReviewNoPending) ∧
     (approveApply 2 9 none inReviewNoPending).email.status = .approved ∧
     pendingCount (approveApply 2 9 none inReviewNoPending).approvals
       = pendingCount inReviewNoPending.approvals - 1 ∧
     (∀ b ∈ (approveApply 2 9 none inReviewNoPending).approvals,
        isPending b = true → b ∈ inReviewNoPending.approvals) ∧
     (pendingCount inReviewNoPending.approvals = 0 →
        (approveApply 2 9 none inReviewNoPending).approvals
          = inReviewNoPending.approvals
            ++ [mkApprovalEvent inReviewNoPending.email.id 2 9
                  (nextEventId inReviewNoPending) none])) ∧
    (rejectEmail 2 9 none inReviewNoPending
       = .ok (rejectApply 2 9 none inReviewNoPending) ∧
     (rejectApply 2 9 none inReviewNoPending).email.status = .rejected ∧
     pendingCount (rejectApply 2 9 none inReviewNoPending).approvals
       = pendingCount inReviewNoPending.approvals - 1 ∧
     (pendingCount inReviewNoPending.approvals = 0 →
        (rejectApply 2 9 none inReviewNoPending).approvals
          = inReviewNoPending.approvals)) :=
  approveEmail_rejectEmail_resolve_latest_pending inReviewNoPending 2 9 none rfl

/-- C3 counterexample: archive applied to a SENT message is not rejected —
`delete_email` has no status guard, so the status changes to ARCHIVED. -/
theorem deleteEmail_archives_sent :
    sentState.email.status = .sent ∧
    (deleteEmail sentState).email.status = .archived :=
  ⟨rfl, rfl⟩

/-- C3 corrected: the guarded transitions (submit, approve, reject, send)
are indeed rejected with an error outside their table's from-states (the
error response discards the uncommitted session, so the status is
unchanged); but archive succeeds from every status — including SENT — and
edit-draft and view are never rejected either: edit-draft succeeds from any
status (moving only READ to DRAFT) and view moves only UNREAD to READ. -/
theorem transition_guard_closure (s : MState) (uid now : Nat)
    (c : Option String) (u : EmailDraftUpdate) (tok : Bool) :
    (¬(s.email.status = .read ∨ s.email.status = .draft ∨
        s.email.status = .rejected) →
       ∃ msg, submitForReview uid now s = .error msg) ∧
    (s.email.status ≠ .in_review →
       (∃ msg, approveEmail uid now c s = .error msg) ∧
       (∃ msg, rejectEmail uid now c s = .error msg)) ∧
    (s.email.status ≠ .approved →
       ∃ msg, sendEmail uid now tok s = .error msg) ∧
    (deleteEmail s).email.status = .archived ∧
    (updateEmailDraft u uid s).email.status
      = (if s.email.status = .read then .draft else s.email.status) ∧
    (getEmail s).email.status
      = (if s.email.status = .unread then .read else s.email.status) := by
  refine ⟨?_, ?_, ?_, rfl, updateEmailDraft_status u uid s, rfl⟩
  · intro hn
    rw [submitForReview, if_neg (by simpa using hn)]
    exact ⟨_, rfl⟩
  · intro hn
    rw [approveEmail, if_neg hn, rejectEmail, if_neg hn]
    exact ⟨⟨_, rfl⟩, ⟨_, rfl⟩⟩
  · intro hn
    rw [sendEmail, if_neg hn]
    exact ⟨_, rfl⟩

/-- Witness for the corrected C3 at the concrete SENT state. -/
theorem transition_guard_closure_witness :
    (∃ msg, submitForReview 1 3 sentState = .error msg) ∧
    (∃ msg, approveEmail 1 3 none sentState = .error msg) ∧
    (∃ msg, sendEmail 1 3 true sentState = .error msg) ∧
    (deleteEmail sentState).email.status = .archived := by
  have h := transition_guard_closure sentState 1 3 none
    ⟨none, none, none, none⟩ true
  exact ⟨h.1 (by decide), (h.2.1 (by decide)).1, h.2.2.1 (by decide),
    h.2.2.2.1⟩

/-- C9 counterexample: submitting an UNREAD message whose draft text is set
is rejected by the source (the guard admits only READ, DRAFT and REJECTED),
so the status does not become IN_REVIEW and no event is created — the
claimed scenario contradicts the transition table the code implements. -/
theorem submitForReview_unread_rejected :
    unreadDraftState.email.status = .unread ∧
    truthy unreadDraftState.email.draftResponse = true ∧
    submitForReview 1 3 unreadDraftState
      = .error "현재 상태(unread)에서는 제출할 수 없습니다" :=
  ⟨rfl, rfl, rfl⟩

/-- C9 corrected: submitting a message whose status is READ (or DRAFT or
REJECTED) and whose draft text is set succeeds: the status becomes IN_REVIEW
and exactly one ApprovalEvent with stage review and decision pending is
appended. -/
theorem submitForReview_read_succeeds (s : MState) (uid now : Nat)
    (hstat : s.email.status = .read ∨ s.email.status = .draft ∨
      s.email.status = .rejected)
    (hdraft : (truthy s.email.draftResponse || truthy s.email.aiDraftResponse)
      = true) :
    submitForReview uid now s = .ok (submitApply uid now s) ∧
    (submitApply uid now s).email.status = .in_review ∧
    (submitApply uid now s).approvals
      = s.approvals ++ [mkReviewPending s.email.id uid now (nextEventId s)] ∧
    (mkReviewPending s.email.id uid now (nextEventId s)).stage = "review" ∧
    isPending (mkReviewPending s.email.id uid now (nextEventId s)) = true := by
  refine ⟨?_, rfl, rfl, rfl, rfl⟩
  rw [submitForReview, if_pos (by simpa using hstat), if_pos hdraft]

/-- Witness for the corrected C9 at the concrete READ state. -/
theorem submitForReview_read_succeeds_witness :
    submitForReview 1 4 readDraftState = .ok (submitApply 1 4 readDraftState) ∧
    (submitApply 1 4 readDraftState).email.status = .in_review ∧
    (submitApply 1 4 readDraftState).approvals
      = readDraftState.approvals
        ++ [mkReviewPending readDraftState.email.id 1 4 (nextEventId readDraftState)] ∧
    (mkReviewPending readDraftState.email.id 1 4 (nextEventId readDraftState)).stage
      = "review" ∧
    isPending (mkReviewPending readDraftState.email.id 1 4
      (nextEventId readDraftState)) = true :=
  submitForReview_read_succeeds readDraftState 1 4 (Or.inl rfl) rfl

/-- AI response whose priority is not one of high/medium/low. -/
def oddPriorityResp : AiOutcome :=
  .ok (some "발주") (some "urgent") (some "요약") (.num 150)

/-- C7 counterexample: when the AI returns priority "urgent",
`classify_email_8cat` passes it through verbatim — the returned priority is
outside the set printed in the claim, while category and confidence are
still normalized. -/
theorem classifyEmail8cat_priority_unvalidated :
    (classifyEmail8cat "제목" oddPriorityResp).priority = "urgent" ∧
    (["high", "medium", "low"].contains "urgent") = false ∧
    (classifyEmail8cat "제목" oddPriorityResp).category = "발주" ∧
    (classifyEmail8cat "제목" oddPriorityResp).confidence = 100 :=
  ⟨rfl, by decide, rfl, rfl⟩

theorem validCats_validateCategory (cat : Option String) :
    validCats.contains (validateCategory cat) = true := by
  rcases cat with _ | c
  · decide
  · rw [validateCategory]
    by_cases h : validCats.contains c = true
    · rw [if_pos h]
      exact h
    · rw [if_neg h]
      decide

/-- C7 corrected: for every AI outcome the returned category lies in the
fixed 8-value set (anything else is coerced to 기타/OTHER) and the returned
confidence is clamped into [0,100]; the priority, however, is NOT validated
against high/medium/low — it is returned verbatim when present, and defaults
to "medium" only when absent or when the call fails. -/
theorem classifyEmail8cat_category_confidence_ok (subject : String)
    (outcome : AiOutcome) :
    validCats.contains (classifyEmail8cat subject outcome).category = true ∧
    0 ≤ (classifyEmail8cat subject outcome).confidence ∧
    (classifyEmail8cat subject outcome).confidence ≤ 100 ∧
    (classifyEmail8cat subject outcome).priority =
      (match outcome with
       | .fail => "medium"
       | .ok _ _ _ .bad => "medium"
       | .ok _ pri _ _ => pri.getD "medium") := by
  rcases outcome with _ | ⟨cat, pri, summ, conf⟩
  · exact ⟨rfl, by show (0 : Int) ≤ 0; decide, by show (0 : Int) ≤ 100; decide, rfl⟩
  · rcases conf with _ | n | _
    · refine ⟨validCats_validateCategory cat, ?_, ?_, rfl⟩
      · show (0 : Int) ≤ min 100 (max 0 50)
        decide
      · show min 100 (max 0 50) ≤ (100 : Int)
        decide
    · refine ⟨validCats_validateCategory cat, ?_, ?_, rfl⟩
      · show (0 : Int) ≤ min 100 (max 0 n)
        omega
      · show min 100 (max 0 n) ≤ (100 : Int)
        omega
    · exact ⟨rfl, by show (0 : Int) ≤ 0; decide, by show (0 : Int) ≤ 100; decide, rfl⟩

/-- C10 (confirmed): the PATCH endpoint writes the caller-supplied category
and priority strings onto the row verbatim, with no validation against the
fixed enumerations — e.g. "spam" is not a valid category yet would be
stored as-is (unlike the classifier path, which coerces to 기타/OTHER). -/
theorem updateEmailDraft_verbatim_category_priority (s : MState) (uid : Nat)
    (dr ds : Option String) (c p : String) :
    (updateEmailDraft
        { draft_response := dr, draft_subject := ds,
          category := some c, priority := some p } uid s).email.category = c ∧
    (updateEmailDraft
        { draft_response := dr, draft_subject := ds,
          category := some c, priority := some p } uid s).email.priority = p ∧
    validCats.contains "spam" = false := by
  refine ⟨?_, ?_, by decide⟩
  · cases dr <;> cases ds <;> rfl
  · cases dr <;> cases ds <;> rfl

/-- Concrete lifecycle trace: ingest, view, submit, approve, send, archive. -/
def cs0 : MState := { email := baseEmail, approvals := [] }

def cs1 : MState := getEmail cs0

def cs2 : MState := submitApply 1 10 cs1

def cs3 : MState := approveApply 2 11 none cs2

def cs4 : MState := sendApply 2 12 cs3

def cs5 : MState := deleteEmail cs4

/-- C4 counterexample: a reachable state violating the claimed biconditional
— after a successful send the message is archived by `delete_email` (which
has no SENT guard), leaving `sent_at` set while the status is ARCHIVED, not
SENT. -/
theorem sentAt_set_after_archive_of_sent :
    Reachable cs5 ∧ cs5.email.sentAt = some 12 ∧
    cs5.email.status = .archived ∧ cs5.email.status ≠ .sent := by
  refine ⟨?_, rfl, rfl, by intro h; cases h⟩
  have h0 : Reachable cs0 := Reachable.init cs0 ⟨rfl, rfl, rfl⟩
  have h1 : Reachable cs1 := Reachable.step cs0 cs1 h0 (Step.view cs0)
  have h2 : Reachable cs2 :=
    Reachable.step cs1 cs2 h1 (Step.submit 1 10 cs1 cs2 rfl)
  have h3 : Reachable cs3 :=
    Reachable.step cs2 cs3 h2 (Step.approve 2 11 none cs2 cs3 rfl)
  have h4 : Reachable cs4 :=
    Reachable.step cs3 cs4 h3 (Step.send 2 12 true cs3 cs4 rfl)
  exact Reachable.step cs4 cs5 h4 (Step.archive cs4)

/-- C4 corrected: in every reachable state, `sent_at` is set if the status
is SENT, and `sent_at` being set implies the status is SENT or ARCHIVED
(the ARCHIVED case arises from archiving an already-sent message); the
claimed biconditional fails only in that archived-after-send case. -/
theorem sentAt_iff_sent_amended (s : MState) (h : Reachable s) :
    (s.email.status = .sent → s.email.sentAt.isSome = true) ∧
    (s.email.sentAt.isSome = true →
       s.email.status = .sent ∨ s.email.status = .archived) :=
  ⟨(reachable_inv h).sent_at_sent, (reachable_inv h).sent_at_only⟩

/-- Witness for the corrected C4 at the concrete SENT state of the trace. -/
theorem sentAt_iff_sent_amended_witness :
    (cs4.email.status = .sent → cs4.email.sentAt.isSome = true) ∧
    (cs4.email.sentAt.isSome = true →
       cs4.email.status = .sent ∨ cs4.email.status = .archived) :=
  sentAt_iff_sent_amended cs4
    (Reachable.step cs3 cs4
      (Reachable.step cs2 cs3
        (Reachable.step cs1 cs2
          (Reachable.step cs0 cs1 (Reachable.init cs0 ⟨rfl, rfl, rfl⟩)
            (Step.view cs0))
          (Step.submit 1 10 cs1 cs2 rfl))
        (Step.approve 2 11 none cs2 cs3 rfl))
      (Step.send 2 12 true cs3 cs4 rfl))

/-- C5 (confirmed): in every reachable state a message has at most one
pending approval row per stage (indeed at most one pending row in total),
and a successful submit always starts from a state with zero pending rows —
it never stacks a second pending review event on an unresolved one. -/
theorem pending_at_most_one_per_stage (s : MState) (h : Reachable s) :
    pendingCount s.approvals ≤ 1 ∧
    (∀ stage : String,
       s.approvals.countP (fun a => isPending a && a.stage == stage) ≤ 1) ∧
    (∀ uid now s', submitForReview uid now s = .ok s' →
       pendingCount s.approvals = 0 ∧ pendingCount s'.approvals = 1) := by
  have hinv := reachable_inv h
  refine ⟨hinv.pending_le, ?_, ?_⟩
  · intro st
    have hmono : s.approvals.countP (fun a => isPending a && a.stage == st)
        ≤ s.approvals.countP isPending := by
      apply List.countP_mono_left
      intro a _ hpa
      exact ((Bool.and_eq_true _ _).mp hpa).1
    exact le_trans hmono hinv.pending_le
  · intro uid now s' hok
    obtain ⟨hstat, _, rfl⟩ := submitForReview_ok hok
    have hz : pendingCount s.approvals = 0 := by
      apply hinv.no_pending <;> rcases hstat with h' | h' | h' <;> rw [h'] <;>
        intro hc <;> cases hc
    refine ⟨hz, ?_⟩
    rw [pendingCount_submitApply, hz]

/-- Witness for C5 at the concrete IN_REVIEW state of the trace (one
pending review row). -/
theorem pending_at_most_one_per_stage_witness :
    pendingCount cs2.approvals ≤ 1 ∧
    (∀ stage : String,
       cs2.approvals.countP (fun a => isPending a && a.stage == stage) ≤ 1) ∧
    (∀ uid now s', submitForReview uid now cs2 = .ok s' →
       pendingCount cs2.approvals = 0 ∧ pendingCount s'.approvals = 1) :=
  pending_at_most_one_per_stage cs2
    (Reachable.step cs1 cs2
      (Reachable.step cs0 cs1 (Reachable.init cs0 ⟨rfl, rfl, rfl⟩)
        (Step.view cs0))
      (Step.submit 1 10 cs1 cs2 rfl))

/-- Transport message whose classifier call fails. -/
def failMsg : TransportMsg :=
  { messageId := some "mid-f", subject := "긴급 요청", sender := "a@ext.kr",
    recipient := "me@corp.kr", dateHeader := none, body := "본문 f",
    ai := .fail, draft := "" }

/-- Transport message whose classifier call succeeds. -/
def okMsg : TransportMsg :=
  { messageId := some "mid-o", subject := "발주서", sender := "b@ext.kr",
    recipient := "me@corp.kr", dateHeader := some 3, body := "본문 o",
    ai := .ok (some "발주") (some "high") (some "발주 요약") (.num 80),
    draft := "회신 초안" }

/-- C6 (confirmed): over a batch of transport messages that carry their
transport-assigned identifier (a Message-ID header — the source mints a
time-dependent fallback id only when that header is missing), ingesting the
batch a second time is a no-op, and after ingestion exactly one row exists
per fetched external id (given the unique-column invariant on the initial
table). -/
theorem ingestBatch_idempotent (uid now uid' now' : Nat) (db : List Email)
    (batch : List (Nat × TransportMsg))
    (hids : ∀ im ∈ batch, im.2.messageId.isSome = true)
    (hdb : ∀ e, countExt db e ≤ 1) :
    ingestBatch uid' now' (ingestBatch uid now db batch) batch
      = ingestBatch uid now db batch ∧
    ∀ im ∈ batch,
      countExt (ingestBatch uid now db batch) (extId now im.1 im.2) = 1 := by
  constructor
  · apply ingestBatch_skips
    intro im him
    rw [extId_of_isSome (hids im him) now' now]
    exact ext_present uid now batch db im him
  · intro im him
    exact countExt_ingestBatch_of_mem uid now db batch hdb him

/-- Witness for C6 on a concrete two-message batch over an empty table. -/
theorem ingestBatch_idempotent_witness :
    ingestBatch 1 6 (ingestBatch 1 5 [] [(10, failMsg), (9, okMsg)])
        [(10, failMsg), (9, okMsg)]
      = ingestBatch 1 5 [] [(10, failMsg), (9, okMsg)] ∧
    ∀ im ∈ [(10, failMsg), (9, okMsg)],
      countExt (ingestBatch 1 5 [] [(10, failMsg), (9, okMsg)])
        (extId 5 im.1 im.2) = 1 :=
  ingestBatch_idempotent 1 5 1 6 [] [(10, failMsg), (9, okMsg)]
    (by decide) (fun e => Nat.zero_le 1)

/-- C8 (confirmed): a message whose classifier call fails is still
persisted — with category 기타 (OTHER), priority medium and confidence 0,
status UNREAD — and the failure does not prevent the remaining messages of
the batch from being ingested (every later fresh external id has a row
afterwards).  The classifier absorbs its own exceptions, so the loop body
never aborts the batch on a classification failure. -/
theorem classifier_failure_fallback_persisted (uid now : Nat) (db : List Email)
    (pre post : List (Nat × TransportMsg)) (i : Nat) (m : TransportMsg)
    (hfail : m.ai = AiOutcome.fail)
    (hfresh : hasExt (ingestBatch uid now db pre) (extId now i m) = false) :
    (∃ r ∈ ingestBatch uid now db (pre ++ (i, m) :: post),
        r.externalId = some (extId now i m) ∧ r.category = "기타" ∧
        r.priority = "medium" ∧ r.aiConfidence = 0 ∧ r.status = .unread) ∧
    ∀ im ∈ post, hasExt (ingestBatch uid now db (pre ++ (i, m) :: post))
        (extId now im.1 im.2) = true := by
  have hfull : ingestBatch uid now db (pre ++ (i, m) :: post)
      = ingestBatch uid now
          (ingestOne uid now (ingestBatch uid now db pre) (i, m)) post := by
    rw [ingestBatch_append]
    rfl
  constructor
  · refine ⟨mkEmail uid now (ingestBatch uid now db pre).length i m,
      ?_, rfl, ?_, ?_, ?_, rfl⟩
    · rw [hfull]
      apply mem_ingestBatch
      rw [ingestOne, if_neg (by rw [hfresh]; intro hc; cases hc)]
      exact List.mem_append_right _ (List.mem_singleton.mpr rfl)
    · show (classifyEmail8cat m.subject m.ai).category = "기타"
      rw [hfail]
      rfl
    · show (classifyEmail8cat m.subject m.ai).priority = "medium"
      rw [hfail]
      rfl
    · show (classifyEmail8cat m.subject m.ai).confidence = 0
      rw [hfail]
      rfl
  · intro im him
    rw [hfull]
    exact ext_present uid now post _ im him

/-- Witness for C8: the failing message at the head of a concrete batch,
followed by a successfully classified one. -/
theorem classifier_failure_fallback_persisted_witness :
    (∃ r ∈ ingestBatch 1 5 [] ([] ++ (10, failMsg) :: [(9, okMsg)]),
        r.externalId = some (extId 5 10 failMsg) ∧ r.category = "기타" ∧
        r.priority = "medium" ∧ r.aiConfidence = 0 ∧ r.status = .unread) ∧
    ∀ im ∈ [(9, okMsg)], hasExt (ingestBatch 1 5 [] ([] ++ (10, failMsg) :: [(9, okMsg)]))
        (extId 5 im.1 im.2) = true :=
  classifier_failure_fallback_persisted 1 5 [] [] [(9, okMsg)] 10 failMsg
    rfl rfl

end CAuto
